import Mathlib

/-!
# go-hexagonal-template: a shallow embedding of the resource service

The Go packages are embedded one namespace per package, leaves first:
`domain` (the entity), `ports` (errors and capability contracts), `hasher`
(the reference hasher), `repository` (the in-memory store), `resource` (the
service), `mock` (the test hasher) and `httphandler` (the transport layer).

Modelling conventions.

* A Go `string` is a sequence of bytes (`GoString`); `len` is the number of
  bytes and `s[:n]` keeps the first `n` bytes.
* `*domain.Resource` values are addresses into an explicit heap of Resource
  cells, so that copying (`cpy := *r`) and aliasing are visible.
* A Go function returning `(T, error)` returns both components; `none` in the
  error component is `nil`.
* A result wrapped in `Option` is `none` when the Go code panics with a nil
  pointer dereference.
* `time.Now().UTC()` is an argument (`now`) of the function that reads it.
-/

/-- A Go string: an immutable sequence of bytes. -/
abbrev GoString := List UInt8

/-- UTF-8 encoding of one code point, as the Go compiler stores it in a string
literal. -/
def encodeRune (c : Nat) : List UInt8 :=
  if c < 0x80 then [UInt8.ofNat c]
  else if c < 0x800 then [UInt8.ofNat (0xC0 + c / 0x40), UInt8.ofNat (0x80 + c % 0x40)]
  else if c < 0x10000 then
    [UInt8.ofNat (0xE0 + c / 0x1000), UInt8.ofNat (0x80 + c / 0x40 % 0x40),
     UInt8.ofNat (0x80 + c % 0x40)]
  else
    [UInt8.ofNat (0xF0 + c / 0x40000), UInt8.ofNat (0x80 + c / 0x1000 % 0x40),
     UInt8.ofNat (0x80 + c / 0x40 % 0x40), UInt8.ofNat (0x80 + c % 0x40)]

/-- The bytes of a Go string literal. -/
def goStr (s : String) : GoString :=
  s.data.flatMap (fun c => encodeRune c.toNat)

/-- Number of characters (code points) of a UTF-8 string: the bytes that are
not continuation bytes `10xxxxxx`. -/
def runeCount (s : GoString) : Nat :=
  (s.filter (fun b => b.toNat / 0x40 != 2)).length

/-- An instant of `time.Time`, in nanoseconds since the epoch. -/
abbrev GoTime := Int

namespace domain

/-- The struct `domain.Resource`. -/
structure Resource where
  ID : GoString
  Content : GoString
  CreatedAt : GoTime
  deriving DecidableEq

end domain

open domain

/-- The address of a heap cell holding a `domain.Resource`. -/
abbrev Ptr := Nat

/-- The Resource cells allocated so far; the cell at address `p` is the
`p`-th element. -/
structure Heap where
  cells : List Resource
  deriving DecidableEq

namespace Heap

/-- Allocation `&v`: a fresh cell initialised with `v`. -/
def new (h : Heap) (v : Resource) : Ptr × Heap :=
  (h.cells.length, ⟨h.cells ++ [v]⟩)

/-- Dereference `*p`; `none` when `p` addresses no cell (in Go: `nil`). -/
def load (h : Heap) (p : Ptr) : Option Resource :=
  h.cells[p]?

/-- Assignment `*p = v` through a pointer held by a caller. -/
def store (h : Heap) (p : Ptr) (v : Resource) : Heap :=
  ⟨h.cells.set p v⟩

end Heap

namespace ports

/-- The error values of the program: `*ports.ValidationError`, the leaf error
of `fmt.Errorf` without `%w`, and the wrapping error of `fmt.Errorf` with
`%w` (its message already formatted). -/
inductive GoError where
  | ValidationError (Msg : GoString)
  | errorString (s : GoString)
  | wrapError (msg : GoString) (err : GoError)
  deriving DecidableEq

namespace GoError

/-- The method `Error()`. -/
def Error : GoError → GoString
  | ValidationError Msg => Msg
  | errorString s => s
  | wrapError msg _ => msg

/-- The function `errors.Unwrap`. -/
def Unwrap : GoError → Option GoError
  | wrapError _ err => some err
  | _ => none

/-- The call `errors.As(err, &ve)` with `ve` of type `*ports.ValidationError`:
the first ValidationError on the unwrap chain. -/
def AsValidationError : GoError → Option GoString
  | ValidationError Msg => some Msg
  | errorString _ => none
  | wrapError _ err => AsValidationError err

end GoError

/-- The call `fmt.Errorf(tag + "%w", err)`. -/
def Errorf_w (tag : GoString) (err : GoError) : GoError :=
  GoError.wrapError (tag ++ err.Error) err

/-- The interface `ports.Hasher`. -/
abbrev Hasher := GoString → GoString × Option GoError

/-- The interface `ports.ResourceRepository`, over repository states `σ`. -/
structure ResourceRepository (σ : Type) where
  Save : σ → Heap → Ptr → Option (σ × Heap × Option GoError)
  GetByID : σ → Heap → GoString → Option (σ × Heap × Option Ptr × Option GoError)

/-- A call made through a driven port. -/
inductive PortCall where
  | Hash (content : GoString)
  | Save (r : Ptr)
  | GetByID (id : GoString)
  deriving DecidableEq

/-- What a service operation returns and leaves behind: the returned pointer
(`none` is `nil`), the returned error, the repository state, the heap, and
the calls it made through the driven ports, in order. -/
structure Ret (σ : Type) where
  res : Option Ptr
  err : Option GoError
  repo : σ
  heap : Heap
  calls : List PortCall

/-- The interface `ports.ResourceService`, over repository states `σ`. -/
structure ResourceService (σ : Type) where
  Create : σ → Heap → GoString → Option (Ret σ)
  GetByID : σ → Heap → GoString → Option (Ret σ)

end ports

open ports

namespace hasher

/-- The method `(*hasher.Mock).Hash`. -/
def Mock.Hash (content : GoString) : GoString × Option GoError :=
  if content = [] then
    ([], some (GoError.errorString (goStr "content cannot be empty")))
  else
    let s := goStr "mock-" ++ content
    let s := if s.length > 24 then s.take 24 else s
    (s, none)

end hasher

namespace mock

/-- The struct `mock.MockHasher`; `HashFunc = none` is the nil func. -/
structure MockHasher where
  HashFunc : Option (GoString → GoString × Option GoError)

/-- The method `(*mock.MockHasher).Hash`. -/
def MockHasher.Hash (m : MockHasher) (content : GoString) : GoString × Option GoError :=
  match m.HashFunc with
  | some f => f content
  | none => (goStr "mock-" ++ content, none)

end mock

namespace repository

/-- The struct `repository.Memory`: the map `byID` from id to the address of
the stored copy. The lock makes each method atomic. -/
structure Memory where
  byID : GoString → Option Ptr

/-- The constructor `NewMemory`. -/
def NewMemory : Memory :=
  ⟨fun _ => none⟩

/-- The method `(*Memory).Save`. -/
def Memory.Save (m : Memory) (h : Heap) (r : Ptr) : Option (Memory × Heap × Option GoError) :=
  match h.load r with
  | none => none
  | some v =>
    let cpy := h.new v
    some (⟨fun k => if k = v.ID then some cpy.1 else m.byID k⟩, cpy.2, none)

/-- The method `(*Memory).GetByID`. -/
def Memory.GetByID (m : Memory) (h : Heap) (id : GoString) :
    Option (Memory × Heap × Option Ptr × Option GoError) :=
  match m.byID id with
  | none => some (m, h, none, none)
  | some r =>
    match h.load r with
    | none => none
    | some v =>
      let cpy := h.new v
      some (m, cpy.2, some cpy.1, none)

/-- The in-memory repository as a `ports.ResourceRepository`. -/
def Memory.port : ResourceRepository Memory :=
  ⟨Memory.Save, Memory.GetByID⟩

end repository

open repository

namespace resource

/-- The struct `resource.Service`. -/
structure Service (σ : Type) where
  hasher : Hasher
  repo : ResourceRepository σ

/-- The constructor `NewService`. -/
def NewService {σ : Type} (hasher : Hasher) (repo : ResourceRepository σ) : Service σ :=
  ⟨hasher, repo⟩

/-- The method `(*Service).Create`. -/
def Service.Create {σ : Type} (s : Service σ) (now : GoTime) (st : σ) (h : Heap)
    (content : GoString) : Option (Ret σ) :=
  if content = [] then
    some ⟨none, some (GoError.ValidationError (goStr "content cannot be empty")), st, h, []⟩
  else
    match s.hasher content with
    | (_, some err) =>
      some ⟨none, some (Errorf_w (goStr "hash content: ") err), st, h, [PortCall.Hash content]⟩
    | (id, none) =>
      let r := h.new ⟨id, content, now⟩
      match s.repo.Save st r.2 r.1 with
      | none => none
      | some (st1, h1, some err) =>
        some ⟨none, some (Errorf_w (goStr "save resource: ") err), st1, h1,
          [PortCall.Hash content, PortCall.Save r.1]⟩
      | some (st1, h1, none) =>
        some ⟨some r.1, none, st1, h1, [PortCall.Hash content, PortCall.Save r.1]⟩

/-- The method `(*Service).GetByID`. -/
def Service.GetByID {σ : Type} (s : Service σ) (st : σ) (h : Heap) (id : GoString) :
    Option (Ret σ) :=
  match s.repo.GetByID st h id with
  | none => none
  | some (st1, h1, _, some err) =>
    some ⟨none, some (Errorf_w (goStr "get resource: ") err), st1, h1, [PortCall.GetByID id]⟩
  | some (st1, h1, r, none) =>
    some ⟨r, none, st1, h1, [PortCall.GetByID id]⟩

/-- The service as a `ports.ResourceService`, for the clock reading `now`. -/
def Service.port {σ : Type} (s : Service σ) (now : GoTime) : ResourceService σ :=
  ⟨s.Create now, s.GetByID⟩

end resource

open resource

namespace httphandler

/-- The parts of `*http.Request` the handlers read: the method, `URL.Path`,
and what `io.ReadAll(r.Body)` gives (`none` when the read fails). -/
structure Request where
  Method : GoString
  Path : GoString
  Body : Option GoString

/-- The struct `createRequest`. -/
structure createRequest where
  Content : GoString
  deriving DecidableEq

/-- The struct `createResponse`. -/
structure createResponse where
  ID : GoString
  Content : GoString
  CreatedAt : GoString
  deriving DecidableEq

/-- The value written as the response body: the JSON object with the one key
`"error"`, the JSON of a `createResponse`, or the plain text of `http.Error`. -/
inductive Body where
  | error (msg : GoString)
  | resource (v : createResponse)
  | text (s : GoString)
  deriving DecidableEq

/-- What a handler wrote to the `http.ResponseWriter`. -/
structure Response where
  status : Nat
  body : Body
  deriving DecidableEq

/-- The standard-library functions the handlers call:
`json.Unmarshal(body, &req)` (`none` when it returns an error) and
`t.Format("2006-01-02T15:04:05Z07:00")`. -/
structure Lib where
  Unmarshal : GoString → Option createRequest
  Format : GoTime → GoString

/-- The constant `http.StatusOK`. -/
def StatusOK : Nat := 200

/-- The constant `http.StatusCreated`. -/
def StatusCreated : Nat := 201

/-- The constant `http.StatusBadRequest`. -/
def StatusBadRequest : Nat := 400

/-- The constant `http.StatusNotFound`. -/
def StatusNotFound : Nat := 404

/-- The constant `http.StatusMethodNotAllowed`. -/
def StatusMethodNotAllowed : Nat := 405

/-- The constant `http.StatusInternalServerError`. -/
def StatusInternalServerError : Nat := 500

/-- A call made through the driver port. -/
inductive SvcCall where
  | Create (content : GoString)
  | GetByID (id : GoString)
  deriving DecidableEq

/-- What serving one request leaves behind: the response, the repository
state, the heap, and the calls made to the service. -/
structure Served (σ : Type) where
  resp : Response
  repo : σ
  heap : Heap
  calls : List SvcCall

/-- The type `http.HandlerFunc`, over repository states `σ`. -/
abbrev HandlerFunc (σ : Type) := σ → Heap → Request → Option (Served σ)

/-- The struct `Handler`. -/
structure Handler (σ : Type) where
  svc : ResourceService σ

/-- The constructor `NewHandler`. -/
def NewHandler {σ : Type} (svc : ResourceService σ) : Handler σ :=
  ⟨svc⟩

/-- The function `writeJSON`. -/
def writeJSON (status : Nat) (v : Body) : Response :=
  ⟨status, v⟩

/-- The function `toCreateResponse`; `none` when `r` is nil. -/
def toCreateResponse (lib : Lib) (h : Heap) (r : Option Ptr) : Option createResponse :=
  match r with
  | none => none
  | some p =>
    match h.load p with
    | none => none
    | some v => some ⟨v.ID, v.Content, lib.Format v.CreatedAt⟩

/-- The method `(*Handler).Create`. -/
def Handler.Create {σ : Type} (hd : Handler σ) (lib : Lib) : HandlerFunc σ :=
  fun st h r =>
  if r.Method ≠ goStr "POST" then
    some ⟨writeJSON StatusMethodNotAllowed (Body.error (goStr "method not allowed")), st, h, []⟩
  else
    match r.Body with
    | none => some ⟨writeJSON StatusBadRequest (Body.error (goStr "invalid body")), st, h, []⟩
    | some body =>
      match lib.Unmarshal body with
      | none => some ⟨writeJSON StatusBadRequest (Body.error (goStr "invalid json")), st, h, []⟩
      | some req =>
        match hd.svc.Create st h req.Content with
        | none => none
        | some ret =>
          match ret.err with
          | some err =>
            match err.AsValidationError with
            | some _ =>
              some ⟨writeJSON StatusBadRequest (Body.error err.Error), ret.repo, ret.heap,
                [SvcCall.Create req.Content]⟩
            | none =>
              some ⟨writeJSON StatusInternalServerError (Body.error err.Error), ret.repo,
                ret.heap, [SvcCall.Create req.Content]⟩
          | none =>
            match toCreateResponse lib ret.heap ret.res with
            | none => none
            | some v =>
              some ⟨writeJSON StatusCreated (Body.resource v), ret.repo, ret.heap,
                [SvcCall.Create req.Content]⟩

/-- The method `(*Handler).GetByID`. -/
def Handler.GetByID {σ : Type} (hd : Handler σ) (lib : Lib) (st : σ) (h : Heap) (r : Request)
    (id : GoString) : Option (Served σ) :=
  if r.Method ≠ goStr "GET" then
    some ⟨writeJSON StatusMethodNotAllowed (Body.error (goStr "method not allowed")), st, h, []⟩
  else
    match hd.svc.GetByID st h id with
    | none => none
    | some ret =>
      match ret.err with
      | some err =>
        some ⟨writeJSON StatusInternalServerError (Body.error err.Error), ret.repo, ret.heap,
          [SvcCall.GetByID id]⟩
      | none =>
        match ret.res with
        | none =>
          some ⟨writeJSON StatusNotFound (Body.error (goStr "not found")), ret.repo, ret.heap,
            [SvcCall.GetByID id]⟩
        | some _ =>
          match toCreateResponse lib ret.heap ret.res with
          | none => none
          | some v =>
            some ⟨writeJSON StatusOK (Body.resource v), ret.repo, ret.heap,
              [SvcCall.GetByID id]⟩

/-- The function `strings.TrimPrefix`. -/
def TrimPrefix (s pre : GoString) : GoString :=
  if pre.isPrefixOf s then s.drop pre.length else s

/-- The function `http.NotFound`. -/
def NotFound : Response :=
  ⟨StatusNotFound, Body.text (goStr "404 page not found\n")⟩

/-- The function literal registered by `Router` under `"GET /resources/"`. -/
def RouterGetFunc {σ : Type} (hd : Handler σ) (lib : Lib) : HandlerFunc σ :=
  fun st h r =>
  let id := TrimPrefix r.Path (goStr "/resources/")
  if id = [] then
    some ⟨NotFound, st, h, []⟩
  else
    hd.GetByID lib st h r id

/-- One registration `mux.HandleFunc(pattern, handler)`. -/
structure Route (σ : Type) where
  pattern : GoString
  handler : HandlerFunc σ

/-- The function `Router`: the registrations it makes on the new mux, which
dispatches a request to the handler registered under the pattern that matches
its method and path. -/
def Router {σ : Type} (hd : Handler σ) (lib : Lib) : List (Route σ) :=
  [⟨goStr "POST /resources", hd.Create lib⟩,
   ⟨goStr "GET /resources/", RouterGetFunc hd lib⟩]

end httphandler

open httphandler

/-- The wiring of `main`: the service over `hasher.NewMock()` and
`repository.NewMemory()`. -/
def mainService : Service Memory :=
  NewService hasher.Mock.Hash Memory.port

/-- The wiring of `main`: the handler over `mainService`. -/
def mainHandler (now : GoTime) : Handler Memory :=
  NewHandler (mainService.port now)

/-- The wiring of the unit tests: the service over a `mock.MockHasher` with
no `HashFunc` and an in-memory repository (`mock.MockRepository` is
`repository.Memory` with a nil-map check that never fires after
`NewMockRepository`). -/
def testService : Service Memory :=
  NewService (mock.MockHasher.Hash ⟨none⟩) Memory.port

/-! ## Observations and client sequences -/

/-- A repository state is well formed when every stored pointer addresses an
allocated cell (Go has no dangling pointers). -/
def WellFormed (m : Memory) (h : Heap) : Prop :=
  ∀ id a, m.byID id = some a → a < h.cells.length

/-- What a caller observes of a `GetByID` result: the Resource the returned
pointer addresses (`none` is nil) and the error. The outer `none` is a
panic. -/
def observe (o : Option (Memory × Heap × Option Ptr × Option GoError)) :
    Option (Option Resource × Option GoError) :=
  o.map (fun x => (x.2.2.1.bind x.2.1.load, x.2.2.2))

/-- One step of a client of the in-memory repository: `Save` of a Resource the
client has built, or `Service.Create` through a service over some hasher. -/
inductive Op where
  | Save (v : Resource)
  | Create (hasher : Hasher) (content : GoString) (now : GoTime)

/-- The repository, the heap, and the ids of the Resources passed to
`Memory.Save` so far. -/
structure World where
  repo : Memory
  heap : Heap
  saved : List GoString

/-- The ids of the Resources a service call passed to `Save`, read off its
port calls. -/
def savedIDs (ret : Ret Memory) : List GoString :=
  ret.calls.filterMap (fun c =>
    match c with
    | PortCall.Save r => (ret.heap.load r).map (fun v => v.ID)
    | _ => none)

/-- Run one client step; `none` is a panic. -/
def Op.step (w : World) : Op → Option World
  | Op.Save v =>
    let r := w.heap.new v
    match w.repo.Save r.2 r.1 with
    | none => none
    | some (m1, h1, _) => some ⟨m1, h1, v.ID :: w.saved⟩
  | Op.Create hasher content now =>
    match (NewService hasher Memory.port).Create now w.repo w.heap content with
    | none => none
    | some ret => some ⟨ret.repo, ret.heap, savedIDs ret ++ w.saved⟩

/-- Run client steps in order; `none` is a panic. -/
def runOps : List Op → World → Option World
  | [], w => some w
  | op :: ops, w =>
    match op.step w with
    | none => none
    | some w1 => runOps ops w1

/-- The empty in-memory repository over a heap `h`. -/
def World.init (h : Heap) : World :=
  ⟨NewMemory, h, []⟩

/-- A `Service.Create` call: its hasher, content and clock reading. -/
structure CreateCall where
  hasher : Hasher
  content : GoString
  now : GoTime

/-- The client step of a `Service.Create` call. -/
def CreateCall.op (c : CreateCall) : Op :=
  Op.Create c.hasher c.content c.now

/-- Run `Service.Create` for each (content, clock reading) in order, keeping
what each call returned; `none` is a panic. -/
def createAll {σ : Type} (s : Service σ) :
    List (GoString × GoTime) → σ → Heap → Option (List (Option Ptr × Option GoError) × σ × Heap)
  | [], st, h => some ([], st, h)
  | c :: rest, st, h =>
    match s.Create c.2 st h c.1 with
    | none => none
    | some ret =>
      match createAll s rest ret.repo ret.heap with
      | none => none
      | some (outs, st1, h1) => some ((ret.res, ret.err) :: outs, st1, h1)

/-- For one finished `Create` call: the Content that `Service.GetByID` of the
ID it returned yields in the state `(st, h)`; `none` when the Create failed or
the GetByID fails or returns absent. -/
def readBack {σ : Type} (s : Service σ) (st : σ) (h : Heap)
    (out : Option Ptr × Option GoError) : Option GoString :=
  match out with
  | (some p, none) =>
    match h.load p with
    | none => none
    | some v =>
      match s.GetByID st h v.ID with
      | none => none
      | some ret =>
        match ret.err, ret.res with
        | none, some q => (ret.heap.load q).map (fun w => w.Content)
        | _, _ => none
  | _ => none

/-- Run `Service.Create` for each call in order from the state `(st, h)`, then
read every created Resource back by the ID its call returned. -/
def readBackAll {σ : Type} (s : Service σ) (calls : List (GoString × GoTime)) (st : σ)
    (h : Heap) : Option (List (Option GoString)) :=
  (createAll s calls st h).map (fun x => x.1.map (readBack s x.2.1 x.2.2))

/-- Two distinct contents of 20 bytes that agree on their first 19 bytes. -/
def collidingCalls : List (GoString × GoTime) :=
  [(goStr "aaaaaaaaaaaaaaaaaaa1", 0), (goStr "aaaaaaaaaaaaaaaaaaa2", 1)]

/-- A content of ten two-byte characters. -/
def tenAccents : GoString :=
  goStr "éééééééééé"

/-- A hasher that fails on every content. -/
def failingHasher : Hasher :=
  fun _ => ([], some (GoError.errorString (goStr "hasher down")))

/-- A repository without state whose Save fails and whose GetByID finds
nothing. -/
def failingRepo : ResourceRepository Unit :=
  ⟨fun st h _ => some (st, h, some (GoError.errorString (goStr "disk full"))),
   fun st h _ => some (st, h, none, none)⟩

/-- Library functions for the examples: a `json.Unmarshal` that accepts only
the JSON object whose `content` is `""`, and a `Format` that prints every
instant alike. -/
def demoLib : Lib :=
  ⟨fun body => if body = goStr "\x7b\"content\":\"\"\x7d" then some ⟨[]⟩ else none,
   fun _ => goStr "1970-01-01T00:00:00Z"⟩

/-! ## The heap -/

theorem Heap.new_fst (h : Heap) (v : Resource) : (h.new v).1 = h.cells.length := rfl

theorem Heap.load_new_self (h : Heap) (v : Resource) :
    (h.new v).2.load h.cells.length = some v := by
  simp [Heap.new, Heap.load]

theorem Heap.lt_of_load (h : Heap) (p : Ptr) (v : Resource) (hl : h.load p = some v) :
    p < h.cells.length := by
  by_contra hn
  have hnone : h.cells[p]? = none := List.getElem?_eq_none (Nat.le_of_not_lt hn)
  simp [Heap.load, hnone] at hl

theorem Heap.load_store_of_ne (h : Heap) (p q : Ptr) (v : Resource) (hne : p ≠ q) :
    (h.store p v).load q = h.load q := by
  simp [Heap.store, Heap.load, List.getElem?_set_ne hne]

theorem Heap.store_length (h : Heap) (p : Ptr) (v : Resource) :
    (h.store p v).cells.length = h.cells.length := by
  simp [Heap.store]

theorem Heap.load_append_length (l : List Resource) (a : Resource) (t : List Resource) :
    (Heap.mk (l ++ a :: t)).load l.length = some a := by
  show (l ++ a :: t)[l.length]? = some a
  rw [List.getElem?_append_right (le_refl _)]
  simp

/-! ## The reference hasher -/

/-- On non-empty content `Mock.Hash` returns no error and the first 24 bytes
of `"mock-" + content` (all of it when it has at most 24 bytes). -/
theorem mock_hash_ok (content : GoString) (hc : content ≠ []) :
    hasher.Mock.Hash content = ((goStr "mock-" ++ content).take 24, none) := by
  unfold hasher.Mock.Hash
  simp only [hc, if_false]
  by_cases hlen : (goStr "mock-" ++ content).length > 24
  · simp [hlen]
  · simp only [hlen, if_false]
    rw [List.take_of_length_le (by omega)]

/-- `Mock.Hash` returns an error exactly on the empty content. -/
theorem mock_hash_err_iff (content : GoString) :
    (hasher.Mock.Hash content).2 ≠ none ↔ content = [] := by
  by_cases hc : content = []
  · simp [hasher.Mock.Hash, hc]
  · simp [mock_hash_ok content hc, hc]

/-- The id `Mock.Hash` returns for non-empty content is non-empty. -/
theorem mock_hash_id_ne_nil (content : GoString) (hc : content ≠ []) :
    (hasher.Mock.Hash content).1 ≠ [] := by
  rw [mock_hash_ok content hc]
  simp [goStr, encodeRune]

/-- The id `Mock.Hash` returns for non-empty content has at most 24 bytes and
starts with the bytes of `"mock-"`. -/
theorem mock_hash_id_bytes (content : GoString) (hc : content ≠ []) :
    (hasher.Mock.Hash content).1.length ≤ 24
      ∧ (hasher.Mock.Hash content).1.take 5 = goStr "mock-" := by
  rw [mock_hash_ok content hc]
  constructor
  · simp [List.length_take]
  · rw [List.take_take]
    have h5 : (goStr "mock-").length = 5 := by decide
    rw [show min 5 24 = (goStr "mock-").length from by rw [h5]; rfl, List.take_left]

/-- The id `Mock.Hash` returns for non-empty content is `"mock-"` followed by
the first 19 bytes of the content. -/
theorem mock_hash_id_take19 (content : GoString) (hc : content ≠ []) :
    (hasher.Mock.Hash content).1 = goStr "mock-" ++ content.take 19 := by
  rw [mock_hash_ok content hc]
  show List.take 24 (goStr "mock-" ++ content) = goStr "mock-" ++ content.take 19
  rw [List.take_append_eq_append_take]
  have h5 : (goStr "mock-").length = 5 := by decide
  rw [h5, List.take_of_length_le (by omega)]

/-! ## The service and the in-memory repository -/

/-- With empty content Create returns the ValidationError and touches
nothing. -/
theorem create_empty {σ : Type} (s : Service σ) (now : GoTime) (st : σ) (h : Heap) :
    s.Create now st h [] =
      some ⟨none, some (GoError.ValidationError (goStr "content cannot be empty")), st, h, []⟩ := by
  simp [Service.Create]

/-- With non-empty content and a hasher that returns an error, Create returns
the wrapped error and touches nothing. -/
theorem create_hash_error {σ : Type} (s : Service σ) (now : GoTime) (st : σ) (h : Heap)
    (content x : GoString) (e : GoError) (hc : content ≠ []) (hh : s.hasher content = (x, some e)) :
    s.Create now st h content =
      some ⟨none, some (Errorf_w (goStr "hash content: ") e), st, h, [PortCall.Hash content]⟩ := by
  simp [Service.Create, hc, hh]

/-- With non-empty content and a hasher that returns `id` without error, Create
over the in-memory repository allocates the Resource, stores a copy of it in
the next cell under `id`, and returns the first cell. -/
theorem create_memory_ok (hs : Hasher) (now : GoTime) (m : Memory) (h : Heap)
    (content id : GoString) (hc : content ≠ []) (hh : hs content = (id, none)) :
    (NewService hs Memory.port).Create now m h content =
      some ⟨some h.cells.length, none,
        ⟨fun k => if k = id then some (h.cells.length + 1) else m.byID k⟩,
        ⟨h.cells ++ [⟨id, content, now⟩, ⟨id, content, now⟩]⟩,
        [PortCall.Hash content, PortCall.Save h.cells.length]⟩ := by
  simp [Service.Create, NewService, Memory.port, Memory.Save, hc, hh, Heap.new, Heap.load]

/-- Create over the in-memory repository never panics: either it fails and
leaves the state alone without calling Save, or the content is non-empty, the
hasher returned some `id`, and the result is the one of `create_memory_ok`. -/
theorem create_memory_cases (hs : Hasher) (now : GoTime) (m : Memory) (h : Heap)
    (content : GoString) :
    (∃ ret, (NewService hs Memory.port).Create now m h content = some ret
        ∧ ret.res = none ∧ ret.err ≠ none ∧ ret.repo = m ∧ ret.heap = h
        ∧ ∀ r, PortCall.Save r ∉ ret.calls)
    ∨ (content ≠ [] ∧ ∃ id, hs content = (id, none)
        ∧ (NewService hs Memory.port).Create now m h content =
          some ⟨some h.cells.length, none,
            ⟨fun k => if k = id then some (h.cells.length + 1) else m.byID k⟩,
            ⟨h.cells ++ [⟨id, content, now⟩, ⟨id, content, now⟩]⟩,
            [PortCall.Hash content, PortCall.Save h.cells.length]⟩) := by
  by_cases hc : content = []
  · left
    subst hc
    exact ⟨⟨none, some (GoError.ValidationError (goStr "content cannot be empty")), m, h, []⟩,
      by simp [Service.Create], rfl, by simp, rfl, rfl, by simp⟩
  · rcases hh : hs content with ⟨id, _ | e⟩
    · right
      exact ⟨hc, id, rfl, create_memory_ok hs now m h content id hc hh⟩
    · left
      exact ⟨_, create_hash_error (NewService hs Memory.port) now m h content id e hc hh, rfl,
        by simp, rfl, rfl, by simp⟩

/-- A Create that returns no error ran on non-empty content with a hasher that
returned an id without error. -/
theorem create_ok_inv {σ : Type} (s : Service σ) (now : GoTime) (st : σ) (h : Heap)
    (content : GoString) (ret : Ret σ) (hcreate : s.Create now st h content = some ret)
    (hok : ret.err = none) :
    content ≠ [] ∧ ∃ id, s.hasher content = (id, none) := by
  by_cases hc : content = []
  · subst hc
    simp [Service.Create] at hcreate
    subst hcreate
    simp at hok
  · refine ⟨hc, ?_⟩
    rcases hh : s.hasher content with ⟨id, _ | e⟩
    · exact ⟨id, rfl⟩
    · rw [create_hash_error s now st h content id e hc hh] at hcreate
      injection hcreate with hret
      subst hret
      simp at hok

/-- `Memory.Save` of a Resource the caller has just built. -/
theorem save_memory_new (m : Memory) (h : Heap) (v : Resource) :
    Memory.Save m (h.new v).2 (h.new v).1 =
      some (⟨fun k => if k = v.ID then some (h.cells.length + 1) else m.byID k⟩,
        ⟨h.cells ++ [v, v]⟩, none) := by
  have hl : (h.new v).2.load (h.new v).1 = some v := Heap.load_new_self h v
  simp [Memory.Save, hl]
  simp [Heap.new]

/-- `Memory.GetByID` of an id bound to an allocated cell returns a fresh copy
of the cell. -/
theorem getByID_memory_some (m : Memory) (h : Heap) (id : GoString) (a : Ptr) (v : Resource)
    (hm : m.byID id = some a) (hl : h.load a = some v) :
    Memory.GetByID m h id = some (m, ⟨h.cells ++ [v]⟩, some h.cells.length, none) := by
  simp [Memory.GetByID, hm, hl, Heap.new]

/-- `Memory.GetByID` of an unbound id returns absent. -/
theorem getByID_memory_none (m : Memory) (h : Heap) (id : GoString) (hm : m.byID id = none) :
    Memory.GetByID m h id = some (m, h, none, none) := by
  simp [Memory.GetByID, hm]

/-- `Service.GetByID` over the in-memory repository passes the repository's
result on, with no error. -/
theorem service_getByID_memory (hs : Hasher) (m : Memory) (h : Heap) (id : GoString) :
    (NewService hs Memory.port).GetByID m h id =
      (Memory.GetByID m h id).map
        (fun x => ⟨x.2.2.1, none, x.1, x.2.1, [PortCall.GetByID id]⟩) := by
  cases hm : m.byID id with
  | none => simp [Service.GetByID, NewService, Memory.port, Memory.GetByID, hm]
  | some a =>
    cases hl : h.load a with
    | none => simp [Service.GetByID, NewService, Memory.port, Memory.GetByID, hm, hl]
    | some v => simp [Service.GetByID, NewService, Memory.port, Memory.GetByID, hm, hl]

/-! ## Sequences of client steps -/

/-- A service result with no Save call saved no id. -/
theorem savedIDs_of_no_save (ret : Ret Memory) (hno : ∀ r, PortCall.Save r ∉ ret.calls) :
    savedIDs ret = [] := by
  unfold savedIDs
  rw [List.filterMap_eq_nil_iff]
  intro c hcmem
  cases c with
  | Hash content => rfl
  | Save r => exact absurd hcmem (hno r)
  | GetByID id => rfl

/-- Every client step returns, keeps every id it does not save unbound or bound
as before, and records the ids it saves. -/
theorem step_total_and_frame (op : Op) (w : World) :
    ∃ w1, op.step w = some w1
      ∧ ∀ id, id ∉ w1.saved → id ∉ w.saved ∧ w1.repo.byID id = w.repo.byID id := by
  cases op with
  | Save v =>
    refine ⟨⟨⟨fun k => if k = v.ID then some (w.heap.cells.length + 1) else w.repo.byID k⟩,
      ⟨w.heap.cells ++ [v, v]⟩, v.ID :: w.saved⟩, ?_, ?_⟩
    · simp [Op.step, save_memory_new]
    · intro id hid
      simp only [List.mem_cons, not_or] at hid
      exact ⟨hid.2, by simp [hid.1]⟩
  | Create hs content now =>
    rcases create_memory_cases hs now w.repo w.heap content with
      ⟨ret, hret, _, _, hrepo, _, hno⟩ | ⟨_, id, _, hret⟩
    · refine ⟨⟨ret.repo, ret.heap, savedIDs ret ++ w.saved⟩, by simp [Op.step, hret], ?_⟩
      intro k hk
      rw [savedIDs_of_no_save ret hno] at hk
      exact ⟨by simpa using hk, by rw [hrepo]⟩
    · refine ⟨⟨⟨fun k => if k = id then some (w.heap.cells.length + 1) else w.repo.byID k⟩,
        ⟨w.heap.cells ++ [⟨id, content, now⟩, ⟨id, content, now⟩]⟩, id :: w.saved⟩, ?_, ?_⟩
      · simp [Op.step, hret, savedIDs, Heap.load_append_length]
      intro k hk
      simp only [List.mem_cons, not_or] at hk
      exact ⟨hk.2, by simp [hk.1]⟩

/-- Every sequence of client steps returns, and an id it did not save is bound
in the final repository as it was in the initial one. -/
theorem runOps_total_and_frame (ops : List Op) (w : World) :
    ∃ w1, runOps ops w = some w1
      ∧ ∀ id, id ∉ w1.saved → id ∉ w.saved ∧ w1.repo.byID id = w.repo.byID id := by
  induction ops generalizing w with
  | nil => exact ⟨w, rfl, fun id hid => ⟨hid, rfl⟩⟩
  | cons op ops ih =>
    obtain ⟨w1, hstep, hframe⟩ := step_total_and_frame op w
    obtain ⟨w2, hrun, hframe2⟩ := ih w1
    refine ⟨w2, by simp [runOps, hstep, hrun], ?_⟩
    intro id hid
    obtain ⟨h1, h2⟩ := hframe2 id hid
    obtain ⟨h3, h4⟩ := hframe id h1
    exact ⟨h3, h2.trans h4⟩

/-- A Create step keeps every stored Resource's Content non-empty. -/
theorem create_step_keeps_content (c : CreateCall) (w : World)
    (hinv : ∀ id a, w.repo.byID id = some a → ∃ v, w.heap.load a = some v ∧ v.Content ≠ []) :
    ∃ w1, c.op.step w = some w1
      ∧ ∀ id a, w1.repo.byID id = some a → ∃ v, w1.heap.load a = some v ∧ v.Content ≠ [] := by
  rcases create_memory_cases c.hasher c.now w.repo w.heap c.content with
    ⟨ret, hret, _, _, hrepo, hheap, _⟩ | ⟨hc, id, _, hret⟩
  · refine ⟨⟨ret.repo, ret.heap, savedIDs ret ++ w.saved⟩, by simp [CreateCall.op, Op.step, hret],
      ?_⟩
    intro k a hk
    simp only [hrepo, hheap] at hk ⊢
    exact hinv k a hk
  · refine ⟨⟨⟨fun k => if k = id then some (w.heap.cells.length + 1) else w.repo.byID k⟩,
      ⟨w.heap.cells ++ [⟨id, c.content, c.now⟩, ⟨id, c.content, c.now⟩]⟩, id :: w.saved⟩, ?_, ?_⟩
    · simp [CreateCall.op, Op.step, hret, savedIDs, Heap.load_append_length]
    · intro k a hk
      simp only at hk
      by_cases hkid : k = id
      · simp only [hkid, if_true, Option.some.injEq] at hk
        subst hk
        refine ⟨⟨id, c.content, c.now⟩, ?_, hc⟩
        show (w.heap.cells ++ [_, _])[w.heap.cells.length + 1]? = some _
        rw [List.getElem?_append_right (by omega)]
        simp
      · simp only [hkid, if_false] at hk
        obtain ⟨v, hv, hne⟩ := hinv k a hk
        refine ⟨v, ?_, hne⟩
        have hlt := Heap.lt_of_load _ _ _ hv
        show (w.heap.cells ++ [_, _])[a]? = some v
        rw [List.getElem?_append_left hlt]
        exact hv

/-- Every sequence of Create steps returns and keeps every stored Resource's
Content non-empty. -/
theorem runCreates_keeps_content (calls : List CreateCall) (w : World)
    (hinv : ∀ id a, w.repo.byID id = some a → ∃ v, w.heap.load a = some v ∧ v.Content ≠ []) :
    ∃ w1, runOps (calls.map CreateCall.op) w = some w1
      ∧ ∀ id a, w1.repo.byID id = some a → ∃ v, w1.heap.load a = some v ∧ v.Content ≠ [] := by
  induction calls generalizing w with
  | nil => exact ⟨w, rfl, hinv⟩
  | cons c calls ih =>
    obtain ⟨w1, hstep, hinv1⟩ := create_step_keeps_content c w hinv
    obtain ⟨w2, hrun, hinv2⟩ := ih w1 hinv1
    exact ⟨w2, by simp [runOps, hstep, hrun], hinv2⟩

/-- Creates of non-empty contents through the reference wiring all return;
they leave every id that is not the hash of one of the contents bound as it
was, and every allocated cell as it was. -/
theorem createAll_main_frame (calls : List (GoString × GoTime)) (m : Memory) (h : Heap)
    (hne : ∀ c ∈ calls, c.1 ≠ []) :
    ∃ outs m1 h1, createAll mainService calls m h = some (outs, m1, h1)
      ∧ (∀ k, k ∉ calls.map (fun c => (hasher.Mock.Hash c.1).1) → m1.byID k = m.byID k)
      ∧ (∀ p v, h.load p = some v → h1.load p = some v) := by
  induction calls generalizing m h with
  | nil => exact ⟨[], m, h, rfl, fun _ _ => rfl, fun _ _ hv => hv⟩
  | cons c rest ih =>
    have hc : c.1 ≠ [] := hne c (List.mem_cons_self _ _)
    have hh : hasher.Mock.Hash c.1 = ((hasher.Mock.Hash c.1).1, none) := by
      rw [mock_hash_ok c.1 hc]
    have hcreate := create_memory_ok hasher.Mock.Hash c.2 m h c.1 _ hc hh
    obtain ⟨outs, m1, h1, hrest, hkeep, hcells⟩ := ih
      ⟨fun k => if k = (hasher.Mock.Hash c.1).1 then some (h.cells.length + 1) else m.byID k⟩
      ⟨h.cells ++ [⟨(hasher.Mock.Hash c.1).1, c.1, c.2⟩, ⟨(hasher.Mock.Hash c.1).1, c.1, c.2⟩]⟩
      (fun d hd => hne d (List.mem_cons_of_mem _ hd))
    refine ⟨(some h.cells.length, none) :: outs, m1, h1, ?_, ?_, ?_⟩
    · simp only [createAll]
      rw [show mainService = NewService hasher.Mock.Hash Memory.port from rfl, hcreate]
      simp only
      rw [show NewService hasher.Mock.Hash Memory.port = mainService from rfl, hrest]
    · intro k hk
      simp only [List.map_cons, List.mem_cons, not_or] at hk
      rw [hkeep k hk.2]
      simp [hk.1]
    · intro p v hv
      apply hcells
      have hlt := Heap.lt_of_load _ _ _ hv
      show (h.cells ++ [_, _])[p]? = some v
      rw [List.getElem?_append_left hlt]
      exact hv

/-- Creates of non-empty contents whose ids are pairwise distinct are all read
back with their own content. -/
theorem readBackAll_main_distinct_ids (calls : List (GoString × GoTime)) (m : Memory) (h : Heap)
    (hne : ∀ c ∈ calls, c.1 ≠ [])
    (hids : (calls.map (fun c => (hasher.Mock.Hash c.1).1)).Nodup) :
    readBackAll mainService calls m h = some (calls.map (fun c => some c.1)) := by
  induction calls generalizing m h with
  | nil => rfl
  | cons c rest ih =>
    have hc : c.1 ≠ [] := hne c (List.mem_cons_self _ _)
    have hh : hasher.Mock.Hash c.1 = ((hasher.Mock.Hash c.1).1, none) := by
      rw [mock_hash_ok c.1 hc]
    have hcreate := create_memory_ok hasher.Mock.Hash c.2 m h c.1 _ hc hh
    have hne1 : ∀ d ∈ rest, d.1 ≠ [] := fun d hd => hne d (List.mem_cons_of_mem _ hd)
    rw [List.map_cons, List.nodup_cons] at hids
    obtain ⟨outs, m1, h1, hrest, hkeep, hcells⟩ := createAll_main_frame rest
      ⟨fun k => if k = (hasher.Mock.Hash c.1).1 then some (h.cells.length + 1) else m.byID k⟩
      ⟨h.cells ++ [⟨(hasher.Mock.Hash c.1).1, c.1, c.2⟩, ⟨(hasher.Mock.Hash c.1).1, c.1, c.2⟩]⟩
      hne1
    have hih := ih
      ⟨fun k => if k = (hasher.Mock.Hash c.1).1 then some (h.cells.length + 1) else m.byID k⟩
      ⟨h.cells ++ [⟨(hasher.Mock.Hash c.1).1, c.1, c.2⟩, ⟨(hasher.Mock.Hash c.1).1, c.1, c.2⟩]⟩
      hne1 hids.2
    simp only [readBackAll, hrest, Option.map_some', Option.some.injEq] at hih
    have hall : createAll mainService (c :: rest) m h
        = some ((some h.cells.length, none) :: outs, m1, h1) := by
      simp only [createAll]
      rw [show mainService = NewService hasher.Mock.Hash Memory.port from rfl, hcreate]
      simp only
      rw [show NewService hasher.Mock.Hash Memory.port = mainService from rfl, hrest]
    have hmine : h1.load h.cells.length = some ⟨(hasher.Mock.Hash c.1).1, c.1, c.2⟩ :=
      hcells _ _ (Heap.load_append_length _ _ _)
    have hstored : h1.load (h.cells.length + 1) = some ⟨(hasher.Mock.Hash c.1).1, c.1, c.2⟩ := by
      apply hcells
      show (h.cells ++ [_, _])[h.cells.length + 1]? = some _
      rw [List.getElem?_append_right (by omega)]
      simp
    have hbound : m1.byID (hasher.Mock.Hash c.1).1 = some (h.cells.length + 1) := by
      rw [hkeep _ hids.1]
      simp
    have hhead : readBack mainService m1 h1 (some h.cells.length, none) = some c.1 := by
      simp only [readBack, hmine]
      rw [show mainService = NewService hasher.Mock.Hash Memory.port from rfl,
        service_getByID_memory, getByID_memory_some m1 h1 _ _ _ hbound hstored]
      simp [Heap.load_append_length]
    simp only [readBackAll, hall, Option.map_some', List.map_cons, hhead, hih]

/-! ## Writes through a caller's pointer -/

/-- Writing through a pointer that the repository does not store changes
neither a stored cell nor what `Memory.GetByID` lets a caller observe. -/
theorem observe_getByID_store (m : Memory) (h : Heap) (p : Ptr) (v : Resource) (id : GoString)
    (hfresh : ∀ k, m.byID k ≠ some p) :
    (∀ k a, m.byID k = some a → (h.store p v).load a = h.load a)
      ∧ observe (Memory.GetByID m (h.store p v) id) = observe (Memory.GetByID m h id) := by
  have hcell : ∀ k a, m.byID k = some a → (h.store p v).load a = h.load a := by
    intro k a hk
    apply Heap.load_store_of_ne
    intro hpa
    exact hfresh k (by rw [hk, hpa])
  refine ⟨hcell, ?_⟩
  cases hm : m.byID id with
  | none => simp [Memory.GetByID, hm, observe]
  | some a =>
    have hla := hcell id a hm
    cases hl : h.load a with
    | none =>
      rw [hl] at hla
      simp [Memory.GetByID, hm, hl, hla, observe]
    | some w =>
      rw [hl] at hla
      rw [getByID_memory_some m h id a w hm hl, getByID_memory_some m _ id a w hm hla]
      simp only [observe, Option.map_some', Option.some_bind, Heap.load_append_length]

/-! ## The claims -/

/-- C1: for every repository, repository state, heap, hasher and clock reading,
`Service.Create` with content `""` returns no Resource and the error
`&ValidationError{"content cannot be empty"}`, which `errors.As` recognises as a
ValidationError; it makes no call to the hasher or to the repository and leaves
the repository state and the heap as they were. -/
theorem C1_create_empty_is_validation_error {σ : Type} (s : Service σ) (now : GoTime)
    (st : σ) (h : Heap) :
    ∃ ret, s.Create now st h [] = some ret
      ∧ ret.res = none
      ∧ ret.err = some (GoError.ValidationError (goStr "content cannot be empty"))
      ∧ (ret.err.bind GoError.AsValidationError).isSome = true
      ∧ ret.calls = []
      ∧ ret.repo = st
      ∧ ret.heap = h := by
  refine ⟨⟨none, some (GoError.ValidationError (goStr "content cannot be empty")), st, h, []⟩,
    ?_, rfl, rfl, rfl, rfl, rfl, rfl⟩
  simp [Service.Create]

/-- C2: for every non-empty content and every hasher that returns `id` for it,
Create over the in-memory repository succeeds and returns a Resource with that
ID, the input Content and the clock reading; with the test hasher the ID is
`"mock-" + content`; with the reference hasher the ID is non-empty and is the
same for any two creates of the content, whatever the repository states and
clock readings. -/
theorem C2_create_returns_hashed_resource (hs : Hasher) (now now2 : GoTime) (m m2 : Memory)
    (h h2 : Heap) (content id : GoString) (hc : content ≠ []) (hh : hs content = (id, none)) :
    (∃ ret p, (NewService hs Memory.port).Create now m h content = some ret
        ∧ ret.err = none ∧ ret.res = some p
        ∧ ret.heap.load p = some ⟨id, content, now⟩)
    ∧ (∃ ret p, testService.Create now m h content = some ret
        ∧ ret.err = none ∧ ret.res = some p
        ∧ ret.heap.load p = some ⟨goStr "mock-" ++ content, content, now⟩)
    ∧ (∃ id1, id1 ≠ []
        ∧ (∃ ret p, mainService.Create now m h content = some ret
            ∧ ret.err = none ∧ ret.res = some p
            ∧ ret.heap.load p = some ⟨id1, content, now⟩)
        ∧ (∃ ret p, mainService.Create now2 m2 h2 content = some ret
            ∧ ret.err = none ∧ ret.res = some p
            ∧ ret.heap.load p = some ⟨id1, content, now2⟩)) := by
  have key : ∀ (hs1 : Hasher) (t : GoTime) (m1 : Memory) (h1 : Heap) (i : GoString),
      hs1 content = (i, none) →
      ∃ ret p, (NewService hs1 Memory.port).Create t m1 h1 content = some ret
        ∧ ret.err = none ∧ ret.res = some p
        ∧ ret.heap.load p = some ⟨i, content, t⟩ := by
    intro hs1 t m1 h1 i hi
    refine ⟨_, h1.cells.length, create_memory_ok hs1 t m1 h1 content i hc hi, rfl, rfl, ?_⟩
    exact Heap.load_append_length _ _ _
  have hmock : hasher.Mock.Hash content = ((hasher.Mock.Hash content).1, none) := by
    simp [hasher.Mock.Hash, hc]
  refine ⟨key hs now m h id hh, key _ now m h _ ?_, (hasher.Mock.Hash content).1, ?_,
    key _ now m h _ hmock, key _ now2 m2 h2 _ hmock⟩
  · simp [mock.MockHasher.Hash]
  · exact mock_hash_id_ne_nil content hc

/-- The test `TestResourceService_Create`: content `"hello"` gives the ID
`"mock-hello"`. -/
theorem C2_create_hello_witness :
    ∃ ret p, testService.Create 0 NewMemory ⟨[]⟩ (goStr "hello") = some ret
      ∧ ret.err = none ∧ ret.res = some p
      ∧ ret.heap.load p = some ⟨goStr "mock-hello", goStr "hello", 0⟩ :=
  (C2_create_returns_hashed_resource (mock.MockHasher.Hash ⟨none⟩) 0 0 NewMemory NewMemory
    ⟨[]⟩ ⟨[]⟩ (goStr "hello") (goStr "mock-hello") (by decide) (by decide)).2.1

/-- C3: round trip over the in-memory repository. When Create succeeds, it
returns a pointer to a Resource `r`, and GetByID of `r.ID` in the state Create
left succeeds and returns a pointer to a Resource equal to `r` (in ID, Content
and CreatedAt), while `r` itself is still what Create returned. -/
theorem C3_create_then_get_round_trip (hs : Hasher) (now : GoTime) (m : Memory) (h : Heap)
    (content : GoString) (ret : Ret Memory)
    (hcreate : (NewService hs Memory.port).Create now m h content = some ret)
    (hok : ret.err = none) :
    ∃ p r, ret.res = some p ∧ ret.heap.load p = some r ∧ r.Content = content
      ∧ ∃ g q, (NewService hs Memory.port).GetByID ret.repo ret.heap r.ID = some g
        ∧ g.err = none ∧ g.res = some q ∧ g.heap.load q = some r
        ∧ g.heap.load p = some r := by
  obtain ⟨hc, id, hh⟩ := create_ok_inv _ now m h content ret hcreate hok
  rw [create_memory_ok hs now m h content id hc hh] at hcreate
  injection hcreate with hret
  subst hret
  refine ⟨h.cells.length, ⟨id, content, now⟩, rfl, Heap.load_append_length _ _ _, rfl, ?_⟩
  have hstored : (Heap.mk (h.cells ++ [Resource.mk id content now, ⟨id, content, now⟩])).load
      (h.cells.length + 1) = some ⟨id, content, now⟩ := by
    show (h.cells ++ [_, _])[h.cells.length + 1]? = some _
    rw [List.getElem?_append_right (by omega)]
    simp
  rw [service_getByID_memory]
  rw [getByID_memory_some _ _ id (h.cells.length + 1) ⟨id, content, now⟩ (by simp) hstored]
  refine ⟨_, h.cells.length + 2, rfl, rfl, by simp, ?_, ?_⟩
  · show (h.cells ++ [_, _] ++ [_])[h.cells.length + 2]? = some _
    rw [List.getElem?_append_right (by simp)]
    simp
  · show (h.cells ++ [_, _] ++ [_])[h.cells.length]? = some _
    rw [List.append_assoc, List.getElem?_append_right (le_refl _)]
    simp

/-- The test `TestResourceService_GetByID`: create `"test"`, then get it. -/
theorem C3_round_trip_witness :
    ∃ p r, some 0 = some p
      ∧ (Heap.mk [⟨goStr "mock-test", goStr "test", 7⟩,
          ⟨goStr "mock-test", goStr "test", 7⟩]).load p = some r
      ∧ r.Content = goStr "test"
      ∧ ∃ g q, testService.GetByID
          ⟨fun k => if k = goStr "mock-test" then some 1 else NewMemory.byID k⟩
          ⟨[⟨goStr "mock-test", goStr "test", 7⟩, ⟨goStr "mock-test", goStr "test", 7⟩]⟩
          r.ID = some g
        ∧ g.err = none ∧ g.res = some q ∧ g.heap.load q = some r
        ∧ g.heap.load p = some r :=
  C3_create_then_get_round_trip (mock.MockHasher.Hash ⟨none⟩) 7 NewMemory ⟨[]⟩ (goStr "test")
    ⟨some 0, none, ⟨fun k => if k = goStr "mock-test" then some 1 else NewMemory.byID k⟩,
      ⟨[⟨goStr "mock-test", goStr "test", 7⟩, ⟨goStr "mock-test", goStr "test", 7⟩]⟩,
      [PortCall.Hash (goStr "test"), PortCall.Save 0]⟩
    (create_memory_ok _ 7 NewMemory ⟨[]⟩ (goStr "test") (goStr "mock-test") (by decide)
      (by decide))
    rfl

/-- C4, amended: for every list of non-empty contents that are pairwise
distinct within their first 19 bytes, and every clock readings, the Creates run
in the list's order through the reference hasher and the in-memory repository,
from the empty repository, all succeed, and afterwards GetByID of the ID each
one returned yields a Resource whose Content is that call's content. -/
theorem C4_no_lost_writes_distinct_prefixes (calls : List (GoString × GoTime)) (h0 : Heap)
    (hne : ∀ c ∈ calls, c.1 ≠ [])
    (hdistinct : (calls.map (fun c => c.1.take 19)).Nodup) :
    readBackAll mainService calls NewMemory h0 = some (calls.map (fun c => some c.1)) := by
  apply readBackAll_main_distinct_ids calls NewMemory h0 hne
  have hmap : calls.map (fun c => (hasher.Mock.Hash c.1).1)
      = (calls.map (fun c => c.1.take 19)).map (fun t => goStr "mock-" ++ t) := by
    rw [List.map_map]
    apply List.map_congr_left
    intro c hcmem
    exact mock_hash_id_take19 c.1 (hne c hcmem)
  rw [hmap]
  exact hdistinct.map (fun a b hab => List.append_cancel_left hab)

/-- Three contents, one of them longer than 19 bytes, created in order and all
read back. -/
theorem C4_no_lost_writes_witness :
    readBackAll mainService
        [(goStr "hello", 1), (goStr "a-content-of-more-than-19-bytes", 2), (goStr "héllo", 3)]
        NewMemory ⟨[]⟩
      = some [some (goStr "hello"), some (goStr "a-content-of-more-than-19-bytes"),
          some (goStr "héllo")] :=
  C4_no_lost_writes_distinct_prefixes
    [(goStr "hello", 1), (goStr "a-content-of-more-than-19-bytes", 2), (goStr "héllo", 3)]
    ⟨[]⟩ (by decide) (by decide)

/-- C4 as stated fails at two distinct non-empty contents of 20 bytes that
share their first 19 bytes: both Creates succeed and return the same ID
`"mock-aaaaaaaaaaaaaaaaaaa"`, the second overwrites the first, and reading
both back yields the second content twice. -/
theorem C4_distinct_contents_lose_a_write :
    (collidingCalls.map Prod.fst).Nodup
      ∧ (∀ c ∈ collidingCalls, c.1 ≠ [])
      ∧ collidingCalls.map (fun c => (hasher.Mock.Hash c.1).1)
        = [goStr "mock-aaaaaaaaaaaaaaaaaaa", goStr "mock-aaaaaaaaaaaaaaaaaaa"]
      ∧ readBackAll mainService collidingCalls NewMemory ⟨[]⟩
        = some [some (goStr "aaaaaaaaaaaaaaaaaaa2"), some (goStr "aaaaaaaaaaaaaaaaaaa2")]
      ∧ readBackAll mainService collidingCalls NewMemory ⟨[]⟩
        ≠ some (collidingCalls.map (fun c => some c.1)) := by
  decide

/-- C5: copy isolation of the in-memory repository, for every well-formed
state `(m, h)`, every pointer `p` a call returned, every new value `v` written
through it (any fields changed) and every id. After `Service.Create`,
`Memory.GetByID` or `Service.GetByID` returned `p`, and after `Memory.Save`
was passed a caller's pointer `r` (one the repository does not hold), the write
`*p = v` leaves every cell the repository stores as it was, and `GetByID` lets
the caller observe (Resource and error) exactly what it would have observed
without the write. -/
theorem C5_copy_isolation (hs : Hasher) (now : GoTime) (m : Memory) (h : Heap)
    (content id0 id : GoString) (r : Ptr) (v : Resource) (hwf : WellFormed m h) :
    (∀ ret p, (NewService hs Memory.port).Create now m h content = some ret → ret.res = some p →
      (∀ k a, ret.repo.byID k = some a → (ret.heap.store p v).load a = ret.heap.load a)
      ∧ observe (Memory.GetByID ret.repo (ret.heap.store p v) id)
        = observe (Memory.GetByID ret.repo ret.heap id))
    ∧ (∀ m1 h1 p e, Memory.GetByID m h id0 = some (m1, h1, some p, e) →
      (∀ k a, m1.byID k = some a → (h1.store p v).load a = h1.load a)
      ∧ observe (Memory.GetByID m1 (h1.store p v) id) = observe (Memory.GetByID m1 h1 id))
    ∧ (∀ ret p, (NewService hs Memory.port).GetByID m h id0 = some ret → ret.res = some p →
      (∀ k a, ret.repo.byID k = some a → (ret.heap.store p v).load a = ret.heap.load a)
      ∧ observe (Memory.GetByID ret.repo (ret.heap.store p v) id)
        = observe (Memory.GetByID ret.repo ret.heap id))
    ∧ (∀ m1 h1 e, (∀ k, m.byID k ≠ some r) → Memory.Save m h r = some (m1, h1, e) →
      (∀ k a, m1.byID k = some a → (h1.store r v).load a = h1.load a)
      ∧ observe (Memory.GetByID m1 (h1.store r v) id) = observe (Memory.GetByID m1 h1 id)) := by
  have hget : ∀ m1 h1 p e, Memory.GetByID m h id0 = some (m1, h1, some p, e) →
      ∀ k, m1.byID k ≠ some p := by
    intro m1 h1 p e hg k hk
    cases hm : m.byID id0 with
    | none => simp [Memory.GetByID, hm] at hg
    | some a =>
      cases hl : h.load a with
      | none => simp [Memory.GetByID, hm, hl] at hg
      | some w =>
        rw [getByID_memory_some m h id0 a w hm hl] at hg
        simp only [Option.some.injEq, Prod.mk.injEq] at hg
        obtain ⟨hm1, _, hp, _⟩ := hg
        subst hm1
        subst hp
        exact absurd (hwf k _ hk) (Nat.lt_irrefl _)
  refine ⟨?_, ?_, ?_, ?_⟩
  · intro ret p hcreate hres
    apply observe_getByID_store
    rcases create_memory_cases hs now m h content with
      ⟨ret1, hret1, hnil, _⟩ | ⟨_, i, _, hret1⟩
    · rw [hret1] at hcreate
      injection hcreate with heq
      subst heq
      rw [hnil] at hres
      exact absurd hres (by simp)
    · rw [hret1] at hcreate
      injection hcreate with heq
      subst heq
      simp only [Option.some.injEq] at hres
      subst hres
      intro k hk
      simp only at hk
      by_cases hki : k = i
      · simp [hki] at hk
      · simp only [hki, if_false] at hk
        exact absurd (hwf k _ hk) (Nat.lt_irrefl _)
  · intro m1 h1 p e hg
    exact observe_getByID_store m1 h1 p v id (hget m1 h1 p e hg)
  · intro ret p hg hres
    rw [service_getByID_memory] at hg
    cases hmem : Memory.GetByID m h id0 with
    | none => simp [hmem] at hg
    | some x =>
      obtain ⟨m1, h1, q, e⟩ := x
      rw [hmem] at hg
      simp only [Option.map_some', Option.some.injEq] at hg
      subst hg
      simp only at hres
      subst hres
      exact observe_getByID_store m1 h1 p v id (hget m1 h1 p e hmem)
  · intro m1 h1 e hno hsave
    apply observe_getByID_store
    cases hl : h.load r with
    | none => simp [Memory.Save, hl] at hsave
    | some w =>
      simp only [Memory.Save, hl, Option.some.injEq, Prod.mk.injEq] at hsave
      obtain ⟨hm1, _, _⟩ := hsave
      subst hm1
      intro k hk
      simp only at hk
      by_cases hkw : k = w.ID
      · simp only [hkw, if_true, Option.some.injEq, Heap.new_fst] at hk
        have hlt := Heap.lt_of_load h r w hl
        rw [← hk] at hlt
        exact Nat.lt_irrefl _ hlt
      · simp only [hkw, if_false] at hk
        exact hno k hk

/-- A caller builds the Resource `a`, saves it, then overwrites its own copy:
GetByID of `"a"` still returns what was saved. -/
theorem C5_copy_isolation_witness :
    observe (Memory.GetByID ⟨fun k => if k = goStr "a" then some 1 else NewMemory.byID k⟩
        ((Heap.mk [⟨goStr "a", goStr "x", 0⟩, ⟨goStr "a", goStr "x", 0⟩]).store 0
          ⟨goStr "b", goStr "changed", 9⟩) (goStr "a"))
      = observe (Memory.GetByID ⟨fun k => if k = goStr "a" then some 1 else NewMemory.byID k⟩
        (Heap.mk [⟨goStr "a", goStr "x", 0⟩, ⟨goStr "a", goStr "x", 0⟩]) (goStr "a"))
    ∧ observe (Memory.GetByID ⟨fun k => if k = goStr "a" then some 1 else NewMemory.byID k⟩
        (Heap.mk [⟨goStr "a", goStr "x", 0⟩, ⟨goStr "a", goStr "x", 0⟩]) (goStr "a"))
      = some (some ⟨goStr "a", goStr "x", 0⟩, none) :=
  ⟨((C5_copy_isolation hasher.Mock.Hash 0 NewMemory ⟨[⟨goStr "a", goStr "x", 0⟩]⟩ (goStr "x")
      (goStr "a") (goStr "a") 0 ⟨goStr "b", goStr "changed", 9⟩
      (by intro id a hk; simp [NewMemory] at hk)).2.2.2
      ⟨fun k => if k = goStr "a" then some 1 else NewMemory.byID k⟩
      ⟨[⟨goStr "a", goStr "x", 0⟩, ⟨goStr "a", goStr "x", 0⟩]⟩ none
      (by intro k; simp [NewMemory]) rfl).2,
   by decide⟩

/-- C6: every sequence of Save and Create steps from the empty in-memory
repository returns, and in the state it reaches, for every id that was not the
ID of a Resource passed to Save in the sequence, `Memory.GetByID` returns nil
with no error and, for every hasher, `Service.GetByID` returns nil with no
error; both leave the repository state and the heap as they were. -/
theorem C6_get_unsaved_id_is_absent (ops : List Op) (h0 : Heap) :
    ∃ w, runOps ops (World.init h0) = some w
      ∧ ∀ id, id ∉ w.saved →
        Memory.GetByID w.repo w.heap id = some (w.repo, w.heap, none, none)
        ∧ ∀ hs : Hasher, ∃ ret, (NewService hs Memory.port).GetByID w.repo w.heap id = some ret
          ∧ ret.res = none ∧ ret.err = none ∧ ret.repo = w.repo ∧ ret.heap = w.heap := by
  obtain ⟨w, hrun, hframe⟩ := runOps_total_and_frame ops (World.init h0)
  refine ⟨w, hrun, ?_⟩
  intro id hid
  have hnone : w.repo.byID id = none := (hframe id hid).2
  have hget := getByID_memory_none w.repo w.heap id hnone
  refine ⟨hget, ?_⟩
  intro hs
  rw [service_getByID_memory, hget]
  exact ⟨_, rfl, rfl, rfl, rfl, rfl⟩

/-- After a Save of `"a"` and a Create of `"hello"` through the reference
hasher, the id `"does-not-exist"` is absent. -/
theorem C6_get_unsaved_id_witness :
    ∃ w, runOps [Op.Save ⟨goStr "a", goStr "x", 0⟩, Op.Create hasher.Mock.Hash (goStr "hello") 1]
        (World.init ⟨[]⟩) = some w
      ∧ w.saved = [goStr "mock-hello", goStr "a"]
      ∧ Memory.GetByID w.repo w.heap (goStr "does-not-exist")
        = some (w.repo, w.heap, none, none) := by
  obtain ⟨w, hrun, hall⟩ := C6_get_unsaved_id_is_absent
    [Op.Save ⟨goStr "a", goStr "x", 0⟩, Op.Create hasher.Mock.Hash (goStr "hello") 1] ⟨[]⟩
  have hsaved : w.saved = [goStr "mock-hello", goStr "a"] := by
    have hcreate := create_memory_ok hasher.Mock.Hash 1
      ⟨fun k => if k = goStr "a" then some 1 else NewMemory.byID k⟩
      ⟨[⟨goStr "a", goStr "x", 0⟩, ⟨goStr "a", goStr "x", 0⟩]⟩
      (goStr "hello") (goStr "mock-hello") (by decide) (by decide)
    simp only [runOps, Op.step, World.init, save_memory_new] at hrun
    simp only [List.nil_append, List.length_nil, List.length_cons, Nat.zero_add] at hrun hcreate
    rw [hcreate] at hrun
    simp only [Option.some.injEq] at hrun
    rw [← hrun]
    simp [savedIDs, Heap.load]
  refine ⟨w, hrun, hsaved, (hall _ ?_).1⟩
  rw [hsaved]
  decide

/-- C7, at the content of ten two-byte characters `"éééééééééé"`: the string
`"mock-" + content` has 15 characters (25 bytes), yet `Mock.Hash` does not
return it whole; it returns its first 24 bytes, which end in the first byte
`0xC3` of the tenth `é` and are not the first characters of the string. -/
theorem C7_mock_hash_cuts_inside_character :
    runeCount (goStr "mock-" ++ tenAccents) = 15
      ∧ (goStr "mock-" ++ tenAccents).length = 25
      ∧ hasher.Mock.Hash tenAccents = (goStr "mock-ééééééééé" ++ [0xC3], none)
      ∧ (hasher.Mock.Hash tenAccents).1 ≠ goStr "mock-" ++ tenAccents := by
  decide

/-- C8: every sequence of `Service.Create` calls (any hashers, any contents,
the empty one included, any clock readings) from the empty in-memory
repository returns, and in the state it reaches every pointer stored in the
repository addresses a Resource whose Content is non-empty. -/
theorem C8_stored_content_non_empty (calls : List CreateCall) (h0 : Heap) :
    ∃ w, runOps (calls.map CreateCall.op) (World.init h0) = some w
      ∧ ∀ id a, w.repo.byID id = some a → ∃ v, w.heap.load a = some v ∧ v.Content ≠ [] := by
  apply runCreates_keeps_content
  intro id a hk
  simp [World.init, NewMemory] at hk

/-- After a Create of `""` and a Create of `"hello"` through the reference
hasher, the repository stores one Resource, under `"mock-hello"`, and its
Content is non-empty. -/
theorem C8_stored_content_witness :
    ∃ w, runOps ([⟨hasher.Mock.Hash, [], 0⟩, ⟨hasher.Mock.Hash, goStr "hello", 1⟩].map
        CreateCall.op) (World.init ⟨[]⟩) = some w
      ∧ w.repo.byID (goStr "mock-hello") = some 1
      ∧ ∃ v, w.heap.load 1 = some v ∧ v.Content ≠ [] := by
  obtain ⟨w, hrun, hall⟩ := C8_stored_content_non_empty
    [⟨hasher.Mock.Hash, [], 0⟩, ⟨hasher.Mock.Hash, goStr "hello", 1⟩] ⟨[]⟩
  have hbound : w.repo.byID (goStr "mock-hello") = some 1 := by
    have hcreate := create_memory_ok hasher.Mock.Hash 1 NewMemory ⟨[]⟩
      (goStr "hello") (goStr "mock-hello") (by decide) (by decide)
    simp only [List.map, CreateCall.op, runOps, Op.step, World.init, create_empty] at hrun
    rw [hcreate] at hrun
    simp only [Option.some.injEq] at hrun
    rw [← hrun]
    simp
  exact ⟨w, hrun, hbound, hall _ _ hbound⟩

/-- C9: failure atomicity of Create, for every service, state and non-empty
content. If the hasher returns an error `e`, Create returns no Resource and an
error whose `Unwrap` is `e`, its only port call is the Hash call (no Save), and
the repository state and heap are unchanged. If the hasher returns `id` and the
Save call Create makes returns an error `e`, Create returns no Resource and an
error whose `Unwrap` is `e`. -/
theorem C9_create_failure_atomicity {σ : Type} (s : Service σ) (now : GoTime) (st : σ)
    (h : Heap) (content : GoString) (hc : content ≠ []) :
    (∀ x e, s.hasher content = (x, some e) →
      ∃ ret err, s.Create now st h content = some ret
        ∧ ret.res = none ∧ ret.err = some err ∧ err.Unwrap = some e
        ∧ ret.calls = [PortCall.Hash content] ∧ (∀ r, PortCall.Save r ∉ ret.calls)
        ∧ ret.repo = st ∧ ret.heap = h)
    ∧ (∀ id st1 h1 e, s.hasher content = (id, none) →
      s.repo.Save st (h.new ⟨id, content, now⟩).2 (h.new ⟨id, content, now⟩).1
        = some (st1, h1, some e) →
      ∃ ret err, s.Create now st h content = some ret
        ∧ ret.res = none ∧ ret.err = some err ∧ err.Unwrap = some e) := by
  constructor
  · intro x e hh
    refine ⟨_, _, create_hash_error s now st h content x e hc hh, rfl, rfl, rfl, rfl, ?_, rfl,
      rfl⟩
    intro r hr
    simp at hr
  · intro id st1 h1 e hh hsave
    refine ⟨⟨none, some (Errorf_w (goStr "save resource: ") e), st1, h1,
      [PortCall.Hash content, PortCall.Save (h.new ⟨id, content, now⟩).1]⟩, _, ?_, rfl, rfl, rfl⟩
    simp [Service.Create, hc, hh, hsave]

/-- A failing hasher over the in-memory repository, and the test hasher over a
repository whose Save fails. -/
theorem C9_failure_atomicity_witness :
    (∃ ret err, (NewService failingHasher Memory.port).Create 0 NewMemory ⟨[]⟩ (goStr "x")
        = some ret
      ∧ ret.res = none ∧ ret.err = some err
      ∧ err.Unwrap = some (GoError.errorString (goStr "hasher down"))
      ∧ ret.calls = [PortCall.Hash (goStr "x")] ∧ (∀ r, PortCall.Save r ∉ ret.calls)
      ∧ ret.repo = NewMemory ∧ ret.heap = ⟨[]⟩)
    ∧ (∃ ret err, (NewService (mock.MockHasher.Hash ⟨none⟩) failingRepo).Create 0 () ⟨[]⟩
        (goStr "x") = some ret
      ∧ ret.res = none ∧ ret.err = some err
      ∧ err.Unwrap = some (GoError.errorString (goStr "disk full"))) :=
  ⟨(C9_create_failure_atomicity (NewService failingHasher Memory.port) 0 NewMemory ⟨[]⟩
      (goStr "x") (by decide)).1 [] _ rfl,
   (C9_create_failure_atomicity (NewService (mock.MockHasher.Hash ⟨none⟩) failingRepo) 0 ()
      ⟨[]⟩ (goStr "x") (by decide)).2 (goStr "mock-x") () _ _ (by decide) rfl⟩

/-- C10: the status mapping of the transport layer.

For every handler (over any service), library functions, state and request:
`Handler.Create`, on a POST whose body reads and unmarshals to `req` and for
which the service returned `ret`, responds 400 with the error's message when
`errors.As` finds a ValidationError in the service's error, 500 with the
error's message for every other service error, and 201 with the Resource when
the service returned a Resource and no error. `Handler.GetByID`, on a GET for
which the service returned `ret`, responds 500 when the service returned an
error, 404 when it returned nil, and 200 with the Resource otherwise. The
handler that `Router` registers under `GET /resources/` answers the path
`/resources/` (the empty identifier) with the 404 of `http.NotFound`, without
calling the service.

With the wiring of `main`: a POST whose body unmarshals to content `""` gets
400 and leaves the repository as it was, and after any sequence of Save and
Create steps from the empty repository a GET of an id that was never saved
gets 404. -/
theorem C10_status_mapping {σ : Type} (hd : Handler σ) (lib : Lib) (st : σ) (h : Heap)
    (r : Request) (ret : Ret σ) (id : GoString) :
    (∀ body req, r.Method = goStr "POST" → r.Body = some body → lib.Unmarshal body = some req →
      hd.svc.Create st h req.Content = some ret →
        (∀ err, ret.err = some err → err.AsValidationError ≠ none →
          ∃ out, hd.Create lib st h r = some out
            ∧ out.resp = ⟨400, Body.error err.Error⟩)
        ∧ (∀ err, ret.err = some err → err.AsValidationError = none →
          ∃ out, hd.Create lib st h r = some out
            ∧ out.resp = ⟨500, Body.error err.Error⟩)
        ∧ (∀ p v, ret.err = none → ret.res = some p → ret.heap.load p = some v →
          ∃ out, hd.Create lib st h r = some out
            ∧ out.resp = ⟨201, Body.resource ⟨v.ID, v.Content, lib.Format v.CreatedAt⟩⟩))
    ∧ (r.Method = goStr "GET" → hd.svc.GetByID st h id = some ret →
        (∀ err, ret.err = some err →
          ∃ out, hd.GetByID lib st h r id = some out
            ∧ out.resp = ⟨500, Body.error err.Error⟩)
        ∧ (ret.err = none → ret.res = none →
          ∃ out, hd.GetByID lib st h r id = some out
            ∧ out.resp = ⟨404, Body.error (goStr "not found")⟩)
        ∧ (∀ p v, ret.err = none → ret.res = some p → ret.heap.load p = some v →
          ∃ out, hd.GetByID lib st h r id = some out
            ∧ out.resp = ⟨200, Body.resource ⟨v.ID, v.Content, lib.Format v.CreatedAt⟩⟩))
    ∧ (r.Path = goStr "/resources/" →
        ∃ rt out, rt ∈ Router hd lib ∧ rt.pattern = goStr "GET /resources/"
          ∧ rt.handler st h r = some out
          ∧ out.resp = ⟨404, Body.text (goStr "404 page not found\n")⟩
          ∧ out.calls = [] ∧ out.repo = st ∧ out.heap = h)
    ∧ (∀ now m body, r.Method = goStr "POST" → r.Body = some body →
        lib.Unmarshal body = some ⟨[]⟩ →
        ∃ out, (mainHandler now).Create lib m h r = some out
          ∧ out.resp = ⟨400, Body.error (goStr "content cannot be empty")⟩
          ∧ out.repo = m ∧ out.heap = h)
    ∧ (∀ now ops w, r.Method = goStr "GET" → runOps ops (World.init h) = some w →
        id ∉ w.saved →
        ∃ out, (mainHandler now).GetByID lib w.repo w.heap r id = some out
          ∧ out.resp = ⟨404, Body.error (goStr "not found")⟩) := by
  refine ⟨?_, ?_, ?_, ?_, ?_⟩
  · intro body req hm hb hu hsvc
    refine ⟨?_, ?_, ?_⟩
    · intro err herr hve
      obtain ⟨msg, hmsg⟩ := Option.ne_none_iff_exists'.mp hve
      exact ⟨⟨writeJSON StatusBadRequest (Body.error err.Error), ret.repo, ret.heap,
        [SvcCall.Create req.Content]⟩, by simp [Handler.Create, hm, hb, hu, hsvc, herr, hmsg],
        rfl⟩
    · intro err herr hve
      exact ⟨⟨writeJSON StatusInternalServerError (Body.error err.Error), ret.repo, ret.heap,
        [SvcCall.Create req.Content]⟩, by simp [Handler.Create, hm, hb, hu, hsvc, herr, hve],
        rfl⟩
    · intro p v herr hres hload
      exact ⟨⟨writeJSON StatusCreated
          (Body.resource ⟨v.ID, v.Content, lib.Format v.CreatedAt⟩), ret.repo, ret.heap,
        [SvcCall.Create req.Content]⟩,
        by simp [Handler.Create, hm, hb, hu, hsvc, herr, hres, hload, toCreateResponse], rfl⟩
  · intro hm hsvc
    refine ⟨?_, ?_, ?_⟩
    · intro err herr
      exact ⟨⟨writeJSON StatusInternalServerError (Body.error err.Error), ret.repo, ret.heap,
        [SvcCall.GetByID id]⟩, by simp [Handler.GetByID, hm, hsvc, herr], rfl⟩
    · intro herr hres
      exact ⟨⟨writeJSON StatusNotFound (Body.error (goStr "not found")), ret.repo, ret.heap,
        [SvcCall.GetByID id]⟩, by simp [Handler.GetByID, hm, hsvc, herr, hres], rfl⟩
    · intro p v herr hres hload
      exact ⟨⟨writeJSON StatusOK (Body.resource ⟨v.ID, v.Content, lib.Format v.CreatedAt⟩),
        ret.repo, ret.heap, [SvcCall.GetByID id]⟩,
        by simp [Handler.GetByID, hm, hsvc, herr, hres, hload, toCreateResponse], rfl⟩
  · intro hpath
    have htrim : TrimPrefix r.Path (goStr "/resources/") = [] := by
      rw [hpath]
      decide
    have hfun : RouterGetFunc hd lib st h r = some ⟨NotFound, st, h, []⟩ := by
      simp [RouterGetFunc, htrim]
    exact ⟨⟨goStr "GET /resources/", RouterGetFunc hd lib⟩, ⟨NotFound, st, h, []⟩,
      by simp [Router], rfl, hfun, rfl, rfl, rfl, rfl⟩
  · intro now m body hm hb hu
    refine ⟨⟨⟨400, Body.error (goStr "content cannot be empty")⟩, m, h,
      [SvcCall.Create []]⟩, ?_, rfl, rfl, rfl⟩
    simp [Handler.Create, hm, hb, hu, mainHandler, NewHandler, Service.port, Service.Create,
      GoError.AsValidationError, GoError.Error, writeJSON, StatusBadRequest]
  · intro now ops w hm hrun hid
    obtain ⟨w1, hrun1, hframe⟩ := runOps_total_and_frame ops (World.init h)
    rw [hrun] at hrun1
    injection hrun1 with hw
    subst hw
    have hnone : w.repo.byID id = none := (hframe id hid).2
    have hget := getByID_memory_none w.repo w.heap id hnone
    refine ⟨⟨⟨404, Body.error (goStr "not found")⟩, w.repo, w.heap, [SvcCall.GetByID id]⟩, ?_,
      rfl⟩
    have hsvc : (mainHandler now).svc.GetByID w.repo w.heap id
        = some ⟨none, none, w.repo, w.heap, [PortCall.GetByID id]⟩ := by
      show (NewService hasher.Mock.Hash Memory.port).GetByID w.repo w.heap id = _
      rw [service_getByID_memory, hget]
      rfl
    simp [Handler.GetByID, hm, hsvc, writeJSON, StatusNotFound]

/-- The end-to-end examples with the wiring of `main`: `POST /resources` with
a body whose `content` is `""` gets 400, and `GET /resources/does-not-exist`
on the empty repository gets 404. -/
theorem C10_status_mapping_witness :
    (∃ out, (mainHandler 0).Create demoLib NewMemory ⟨[]⟩
        ⟨goStr "POST", goStr "/resources", some (goStr "\x7b\"content\":\"\"\x7d")⟩ = some out
      ∧ out.resp = ⟨400, Body.error (goStr "content cannot be empty")⟩
      ∧ out.repo = NewMemory ∧ out.heap = ⟨[]⟩)
    ∧ (∃ out, (mainHandler 0).GetByID demoLib NewMemory ⟨[]⟩
        ⟨goStr "GET", goStr "/resources/does-not-exist", none⟩ (goStr "does-not-exist")
        = some out
      ∧ out.resp = ⟨404, Body.error (goStr "not found")⟩) :=
  ⟨(C10_status_mapping (mainHandler 0) demoLib NewMemory ⟨[]⟩
      ⟨goStr "POST", goStr "/resources", some (goStr "\x7b\"content\":\"\"\x7d")⟩
      ⟨none, none, NewMemory, ⟨[]⟩, []⟩ []).2.2.2.1 0 NewMemory _ rfl rfl (by decide),
   (C10_status_mapping (mainHandler 0) demoLib NewMemory ⟨[]⟩
      ⟨goStr "GET", goStr "/resources/does-not-exist", none⟩
      ⟨none, none, NewMemory, ⟨[]⟩, []⟩ (goStr "does-not-exist")).2.2.2.2 0 []
      (World.init ⟨[]⟩) rfl rfl (by simp [World.init])⟩
